import Mathlib

/- Verification development for the semgrep-ghes-util repository.

   The definitions below are a shallow embedding of the reconciliation and
   batch-orchestration logic of src/semgrep_ghes_util/cli.py and of the data
   model of src/semgrep_ghes_util/clients/semgrep_client.py.  Pure Python
   functions become Lean functions; the network calls made by the CLI
   commands are replaced by explicit environment parameters (the responses)
   together with an event trace recording which calls are issued, in order;
   `time.sleep` becomes a trace event.  The Python string and URL-parsing
   primitives the code relies on (str.rstrip / str.strip / str.split /
   urllib.parse.urlparse) are modelled character-exactly for ASCII input. -/

/-- Model of Python `s.rstrip(c)` for a single strip character: removes every
trailing occurrence of `c`. -/
def pyRstrip (c : Char) (s : String) : String :=
  String.mk ((s.toList.reverse.dropWhile (fun d => d == c)).reverse)

/-- Model of Python `s.lower()` for ASCII input: lowercase every character
(character-wise, like CPython for ASCII; full Unicode case folding is
outside the model). -/
def pyLower (s : String) : String :=
  String.mk (s.toList.map Char.toLower)

/-- Model of Python `s.strip(c)` on a character list: removes every leading
and trailing occurrence of `c`. -/
def pyStripChar (c : Char) (l : List Char) : List Char :=
  ((l.dropWhile (fun d => d == c)).reverse.dropWhile (fun d => d == c)).reverse

/-- Model of Python `s.split(sep)` for a one-character separator: empty
fields are kept, and the result is never the empty list (in particular
`"".split(sep)` is `[""]`). -/
def pySplitChar (sep : Char) : List Char → List (List Char)
  | [] => [[]]
  | c :: rest =>
    if c == sep then [] :: pySplitChar sep rest
    else
      match pySplitChar sep rest with
      | [] => [[c]]
      | h :: t => (c :: h) :: t

/-- The normalization cli.py applies to base URLs before comparing them:
`url.rstrip("/").lower()`. -/
def normalizeBaseUrl (s : String) : String :=
  pyLower (pyRstrip '/' s)

/-- Result record of CPython's `urllib.parse.urlsplit`. -/
structure UrlSplitResult where
  scheme : String
  netloc : String
  path : String
  query : String
  fragment : String
deriving DecidableEq

/-- Characters allowed in a URL scheme after the first one
(CPython `urllib.parse.scheme_chars`). -/
def schemeChar (c : Char) : Bool :=
  c.isAlpha || c.isDigit || c == '+' || c == '-' || c == '.'

/-- Split a character list at the first occurrence of `c`: the part before
it and the part after it (the delimiter removed); `(l, [])` when `c` is
absent.  Models the `url.split(sep, 1)` steps inside urlsplit. -/
def splitOnceChar (c : Char) (l : List Char) : List Char × List Char :=
  (l.takeWhile (fun d => !(d == c)), (l.dropWhile (fun d => !(d == c))).drop 1)

/-- A character ending the netloc portion of a URL (CPython `_splitnetloc`
stops at the first of these). -/
def netlocDelim (c : Char) : Bool :=
  c == '/' || c == '?' || c == '#'

/-- Modelled from CPython `urllib.parse.urlsplit` (the library call made by
`cli.get_namespace_from_url`): strip leading/trailing C0-control-or-space
characters, delete tab/CR/LF, split off a scheme when the text before the
first ':' is a letter followed by scheme characters, read the netloc after
a leading '//' up to the first '/', '?' or '#' (raising `ValueError
"Invalid IPv6 URL"` on a lone square bracket in the netloc), then split off
fragment and query.  The NFKC netloc check and the CPython-3.11+ bracketed
host validation, which concern non-ASCII and bracketed IPv6 input only, are
outside the model. -/
def pyUrlsplit (url : String) : Except String UrlSplitResult :=
  let cs0 := url.toList
  let cs1 := ((cs0.dropWhile (fun c => c ≤ ' ')).reverse.dropWhile (fun c => c ≤ ' ')).reverse
  let cs := cs1.filter (fun c => !(c == '\t' || c == '\r' || c == '\n'))
  let schemeSplit :=
    match cs.findIdx? (fun c => c == ':') with
    | some i =>
      if 0 < i ∧ (cs.headD ' ').isAlpha ∧ (cs.take i).all schemeChar then
        ((cs.take i).map Char.toLower, cs.drop (i + 1))
      else ([], cs)
    | none => ([], cs)
  let scheme := schemeSplit.1
  let rest := schemeSplit.2
  let netlocSplit :=
    match rest with
    | '/' :: '/' :: r => (r.takeWhile (fun c => !(netlocDelim c)), r.dropWhile (fun c => !(netlocDelim c)))
    | _ => ([], rest)
  let netloc := netlocSplit.1
  let rest2 := netlocSplit.2
  if ('[' ∈ netloc ∧ ']' ∉ netloc) ∨ (']' ∈ netloc ∧ '[' ∉ netloc) then
    Except.error "Invalid IPv6 URL"
  else
    let fragSplit := splitOnceChar '#' rest2
    let querySplit := splitOnceChar '?' fragSplit.1
    Except.ok
      { scheme := String.mk scheme
        netloc := String.mk netloc
        path := String.mk querySplit.1
        query := String.mk querySplit.2
        fragment := String.mk fragSplit.2 }

/-- Result record of CPython's `urllib.parse.urlparse`. -/
structure UrlParseResult where
  scheme : String
  netloc : String
  path : String
  params : String
  query : String
  fragment : String
deriving DecidableEq

/-- Schemes for which urlparse splits parameters off the path
(CPython `urllib.parse.uses_params`). -/
def usesParams : List String :=
  ["", "ftp", "hdl", "prospero", "http", "imap", "https", "shttp",
   "rtsp", "rtspu", "sip", "sips", "mms", "sftp", "tel"]

/-- Modelled from CPython `urllib.parse._splitparams`: split `;params` off
the last path segment (callers guarantee ';' occurs in the input). -/
def pySplitparams (l : List Char) : List Char × List Char :=
  if '/' ∈ l then
    let j := l.length - 1 - ((l.reverse.findIdx? (fun c => c == '/')).getD 0)
    match (l.drop j).findIdx? (fun c => c == ';') with
    | some k => (l.take (j + k), l.drop (j + k + 1))
    | none => (l, [])
  else
    match l.findIdx? (fun c => c == ';') with
    | some k => (l.take k, l.drop (k + 1))
    | none => (l, [])

/-- Modelled from CPython `urllib.parse.urlparse`: urlsplit, then parameter
splitting for schemes in `usesParams`. -/
def pyUrlparse (url : String) : Except String UrlParseResult :=
  match pyUrlsplit url with
  | .error e => .error e
  | .ok r =>
    if r.scheme ∈ usesParams ∧ ';' ∈ r.path.toList then
      let pp := pySplitparams r.path.toList
      .ok { scheme := r.scheme, netloc := r.netloc, path := String.mk pp.1,
            params := String.mk pp.2, query := r.query, fragment := r.fragment }
    else
      .ok { scheme := r.scheme, netloc := r.netloc, path := r.path,
            params := "", query := r.query, fragment := r.fragment }

/-- Embeds `cli.get_namespace_from_url` (cli.py lines 584-598): parse the
URL, return `(f"{scheme}://{netloc}", path.strip("/").split("/")[0])` when
the path-part list is non-empty, `None` otherwise, and `None` when urlparse
raises.  The Python truthiness test `if path_parts:` is the non-emptiness
match below. -/
def get_namespace_from_url (url : String) : Option (String × String) :=
  match pyUrlparse url with
  | .error _ => none
  | .ok parsed =>
    let base_url := parsed.scheme ++ "://" ++ parsed.netloc
    let path_parts := pySplitChar '/' (pyStripChar '/' parsed.path.toList)
    match path_parts with
    | p :: _ => some (base_url, String.mk p)
    | [] => none

/-- Embeds `semgrep_client.ScmStatus`; the `checked` datetime is abstracted
to an optional integer timestamp (it is only stored and displayed). -/
structure ScmStatus where
  checked : Option Int := none
  ok : Bool := false
  error : Option String := none
deriving DecidableEq

/-- Embeds `semgrep_client.ScmTokenScopes` (the seven boolean scope
fields). -/
structure ScmTokenScopes where
  read_metadata : Bool := false
  read_pull_request : Bool := false
  write_pull_request_comment : Bool := false
  read_contents : Bool := false
  read_members : Bool := false
  manage_webhooks : Bool := false
  write_contents : Bool := false
deriving DecidableEq

/-- Embeds `ScmTokenScopes.ALL_SCOPES`. -/
def ScmTokenScopes.ALL_SCOPES : List String :=
  ["read_metadata", "read_pull_request", "write_pull_request_comment",
   "read_contents", "read_members", "manage_webhooks", "write_contents"]

/-- Models `getattr(self, scope, False)` as used by `has_scopes` and
`missing_scopes`: the seven scope field names map to their fields, any
other name yields the `False` default.  (Python getattr could also reach
non-field attributes such as methods; the CLI validates scope names against
ALL_SCOPES before they reach these functions, so only the field names and
the default are in the model.) -/
def ScmTokenScopes.getScope (ts : ScmTokenScopes) (name : String) : Bool :=
  if name = "read_metadata" then ts.read_metadata
  else if name = "read_pull_request" then ts.read_pull_request
  else if name = "write_pull_request_comment" then ts.write_pull_request_comment
  else if name = "read_contents" then ts.read_contents
  else if name = "read_members" then ts.read_members
  else if name = "manage_webhooks" then ts.manage_webhooks
  else if name = "write_contents" then ts.write_contents
  else false

/-- Embeds `ScmTokenScopes.has_scopes` (semgrep_client.py lines 116-128). -/
def ScmTokenScopes.has_scopes (ts : ScmTokenScopes) (required : List String) : Bool :=
  required.all (fun scope => ts.getScope scope)

/-- Embeds `ScmTokenScopes.missing_scopes` (semgrep_client.py lines 130-139). -/
def ScmTokenScopes.missing_scopes (ts : ScmTokenScopes) (required : List String) : List String :=
  required.filter (fun scope => !(ts.getScope scope))

/-- Embeds `semgrep_client.ScmConfig`.  The Python field `namespace` is a
Lean keyword and is called `nsp` here; `last_successful_sync_at` is
abstracted to an optional integer timestamp. -/
structure ScmConfig where
  id : String
  type : String
  nsp : String
  source_id : Option String := none
  base_url : Option String := none
  status : Option ScmStatus := none
  installed : Bool := false
  suspended : Bool := false
  github_entity_type : Option String := none
  auto_scan : Bool := false
  use_network_broker : Bool := false
  token_scopes : Option ScmTokenScopes := none
  last_successful_sync_at : Option Int := none
  scm_id : Option String := none
deriving DecidableEq

/-- Embeds the `ScmConfig.is_healthy` property:
`self.status is not None and self.status.ok`. -/
def ScmConfig.is_healthy (c : ScmConfig) : Bool :=
  match c.status with
  | some st => st.ok
  | none => false

/-- Embeds `ScmConfig.meets_requirements` (semgrep_client.py lines 194-210):
false when not healthy; otherwise, when `required_scopes` is truthy (a
non-empty list) and `token_scopes` is present, the `has_scopes` test;
otherwise true. -/
def ScmConfig.meets_requirements (c : ScmConfig)
    (required_scopes : Option (List String) := none) : Bool :=
  if !c.is_healthy then false
  else
    match required_scopes, c.token_scopes with
    | some rs, some ts => if rs.isEmpty then true else ts.has_scopes rs
    | _, _ => true

/-- Embeds `semgrep_client.Repo`. -/
structure Repo where
  id : Int
  name : String
  url : Option String := none
  is_archived : Bool := false
  is_setup : Bool := false
  is_disconnected : Bool := false
  scm_type : Option String := none
deriving DecidableEq

/-- Embeds `github_client.GithubOrganization`. -/
structure GithubOrganization where
  id : Int
  login : String
  description : Option String := none
  url : Option String := none
deriving DecidableEq

/-- Truthiness of an optional Python string field: `None` and `""` are
falsy. -/
def pyTruthyOptStr : Option String → Bool
  | none => false
  | some s => !(s == "")

/-- The base-url filter used by `get_missing_orgs` and the `cmd_scm_*`
commands: `config.base_url and config.base_url.rstrip("/").lower() ==
ghes_url.rstrip("/").lower()`. -/
def configMatchesUrl (ghes_url : String) (config : ScmConfig) : Bool :=
  match config.base_url with
  | some b => !(b == "") && (normalizeBaseUrl b == normalizeBaseUrl ghes_url)
  | none => false

/-- Embeds the pure core of `cli.get_missing_orgs` (cli.py lines 107-141):
the two inventory fetches (`github_client.list_organizations()` and
`semgrep_client.list_scm_configs()`) become the `ghes_orgs` and
`all_configs` arguments; the Python sets are lists used only through
membership. -/
def get_missing_orgs (ghes_url : String) (ghes_orgs : List GithubOrganization)
    (all_configs : List ScmConfig) : List GithubOrganization × List ScmConfig :=
  let ghes_org_names : List String := ghes_orgs.map (fun org => pyLower org.login)
  let ghes_configs : List ScmConfig := all_configs.filter (configMatchesUrl ghes_url)
  let configured_orgs : List String := ghes_configs.map (fun config => pyLower config.nsp)
  let missing_org_names : List String :=
    ghes_org_names.filter (fun n => decide (n ∉ configured_orgs))
  let missing_orgs : List GithubOrganization :=
    ghes_orgs.filter (fun org => decide (pyLower org.login ∈ missing_org_names))
  (missing_orgs, ghes_configs)

/-- Embeds the healthy-namespace set construction shared by
`filter_projects_by_healthy_scm` and `filter_repos_by_healthy_scm`
(cli.py lines 656-660): the pairs
`(config.base_url.rstrip("/").lower(), config.namespace.lower())` of the
configs with `config.meets_requirements(required_scopes) and
config.base_url`.  The Python set is a list used only through
membership. -/
def healthyNamespacePairs (scm_configs : List ScmConfig)
    (required_scopes : Option (List String)) : List (String × String) :=
  scm_configs.filterMap (fun config =>
    match config.base_url with
    | some b =>
      if config.meets_requirements required_scopes && !(b == "") then
        some (normalizeBaseUrl b, pyLower config.nsp)
      else none
    | none => none)

/-- The per-repo branch structure of the `filter_repos_by_healthy_scm` loop
(cli.py lines 665-678), as a predicate: a repo goes to the healthy list iff
its url is truthy, parses, and the lowercased parsed pair is in the healthy
set. -/
def repoAccepted (scm_configs : List ScmConfig) (required_scopes : Option (List String))
    (repo : Repo) : Bool :=
  match repo.url with
  | none => false
  | some u =>
    if u = "" then false
    else
      match get_namespace_from_url u with
      | some (base_url, nsp) =>
        decide ((pyLower base_url, pyLower nsp) ∈ healthyNamespacePairs scm_configs required_scopes)
      | none => false

/-- The repo loop of `filter_repos_by_healthy_scm` (cli.py lines 662-680),
with the healthy-pair set as a parameter. -/
def filterReposGo (healthy_namespaces : List (String × String)) :
    List Repo → List Repo × List Repo
  | [] => ([], [])
  | repo :: rest =>
    let r := filterReposGo healthy_namespaces rest
    match repo.url with
    | none => (r.1, repo :: r.2)
    | some u =>
      if u = "" then (r.1, repo :: r.2)
      else
        match get_namespace_from_url u with
        | some (base_url, nsp) =>
          if (pyLower base_url, pyLower nsp) ∈ healthy_namespaces then (repo :: r.1, r.2)
          else (r.1, repo :: r.2)
        | none => (r.1, repo :: r.2)

/-- Embeds `cli.filter_repos_by_healthy_scm` (cli.py lines 642-680):
returns `(healthy_repos, skipped_repos)`. -/
def filter_repos_by_healthy_scm (repos : List Repo) (scm_configs : List ScmConfig)
    (required_scopes : Option (List String) := none) : List Repo × List Repo :=
  filterReposGo (healthyNamespacePairs scm_configs required_scopes) repos

/-- Network and sleep events issued by the embedded CLI commands, in
program order.  `fetchConfigs` is the `list_scm_configs()` call,
`deleteConfig` / `bulkUpdate` / `triggerScans` are the mutation calls,
`checkScan` is the per-repo `has_full_scan` lookup, `sleepChunk` is the
inter-chunk `time.sleep(args.delay)` and `sleepCheck` the per-check
`time.sleep(args.check_delay)`. -/
inductive NetEvent where
  | fetchConfigs : NetEvent
  | deleteConfig (configId : String) : NetEvent
  | bulkUpdate (repoIds : List Int) : NetEvent
  | triggerScans (repoIds : List Int) : NetEvent
  | checkScan (repoId : Int) : NetEvent
  | sleepChunk : NetEvent
  | sleepCheck : NetEvent
deriving DecidableEq

/-- The id payloads of the mutation calls in a trace (bulk updates and scan
triggers), in order. -/
def mutationPayloads : List NetEvent → List (List Int)
  | [] => []
  | NetEvent.bulkUpdate ids :: rest => ids :: mutationPayloads rest
  | NetEvent.triggerScans ids :: rest => ids :: mutationPayloads rest
  | _ :: rest => mutationPayloads rest

/-- How the embedded `cmd_scm_delete_configs` terminates. -/
inductive DeleteOutcome where
  | exited (code : Nat) : DeleteOutcome
  | noMatching : DeleteOutcome
  | dryRun (count : Nat) : DeleteOutcome
  | finished (deleted failed : Nat) : DeleteOutcome
deriving DecidableEq

/-- The delete loop of `cmd_scm_delete_configs` (cli.py lines 567-578):
one `delete_scm_config` call per config, errors caught and counted, the
delay slept only between items (`i < len(matching_configs) - 1`).
Returns the events and the `(deleted, failed)` counters. -/
def delete_loop (deleteEnv : String → Except String Unit) (delayPos : Bool) :
    List ScmConfig → List NetEvent × Nat × Nat
  | [] => ([], 0, 0)
  | config :: rest =>
    let sleepEvs := if delayPos ∧ rest ≠ [] then [NetEvent.sleepChunk] else []
    let restRun := delete_loop deleteEnv delayPos rest
    match deleteEnv config.id with
    | .ok _ => (NetEvent.deleteConfig config.id :: (sleepEvs ++ restRun.1),
                restRun.2.1 + 1, restRun.2.2)
    | .error _ => (NetEvent.deleteConfig config.id :: (sleepEvs ++ restRun.1),
                   restRun.2.1, restRun.2.2 + 1)

/-- Embeds `cli.cmd_scm_delete_configs` (cli.py lines 523-581).  The
`list_scm_configs()` response becomes the `all_configs` argument but the
call itself is recorded as the first trace event; the empty-orgs check
(`if not args.orgs: ... sys.exit(1)`, lines 540-543) runs after it, exactly
as in the source.  `delayPos` is `args.delay > 0`. -/
def cmd_scm_delete_configs (ghes_url : String) (orgs : List String)
    (dry_run delayPos : Bool) (all_configs : List ScmConfig)
    (deleteEnv : String → Except String Unit) : List NetEvent × DeleteOutcome :=
  let fetched := [NetEvent.fetchConfigs]
  let matching1 := all_configs.filter (configMatchesUrl ghes_url)
  if orgs = [] then (fetched, DeleteOutcome.exited 1)
  else
    let org_names_lower := orgs.map pyLower
    let matching := matching1.filter (fun config => decide (pyLower config.nsp ∈ org_names_lower))
    if matching = [] then (fetched, DeleteOutcome.noMatching)
    else if dry_run then (fetched, DeleteOutcome.dryRun matching.length)
    else
      let run := delete_loop deleteEnv delayPos matching
      (fetched ++ run.1, DeleteOutcome.finished run.2.1 run.2.2)

/-- The accumulators of the `cmd_scm_onboard_repos` batch loop
(cli.py lines 776-778). -/
structure OnboardState where
  all_updated : List String := []
  failed_count : Nat := 0
  failed_batches : List (Nat × List Int × String) := []
deriving DecidableEq

/-- Fuel-indexed chunking helper; with fuel at least the list length it
yields the slices `repo_ids[i : i + bs]` for `i in range(0, len, bs)`. -/
def chunksAux (bs : Nat) : Nat → List Int → List (List Int)
  | 0, _ => []
  | _ + 1, [] => []
  | fuel + 1, x :: xs => (x :: xs).take bs :: chunksAux bs fuel ((x :: xs).drop bs)

/-- The batches `repo_ids[i : i + bs]` visited by
`for i in range(0, len(repo_ids), bs)` (cli.py line 780). -/
def chunks (bs : Nat) (ids : List Int) : List (List Int) :=
  chunksAux bs ids.length ids

/-- The try/except body of one onboarding chunk (cli.py lines 784-795):
success extends `all_updated` with the returned names; failure adds the
batch length to `failed_count` and records `(batch_num, batch, error)`.
`env` is the `bulk_update_repos` response for a chunk. -/
def onboard_step (env : List Int → Except String (List String)) (batch : List Int)
    (batch_num : Nat) (st : OnboardState) : OnboardState :=
  match env batch with
  | .ok updated => { st with all_updated := st.all_updated ++ updated }
  | .error e =>
    { st with failed_count := st.failed_count + batch.length,
              failed_batches := st.failed_batches ++ [(batch_num, batch, e)] }

/-- The chunk loop of `cmd_scm_onboard_repos` (cli.py lines 780-799): one
`bulk_update_repos` call per chunk, counted by `onboard_step`; the delay is
slept only when `i + batch_size < len(repo_ids)`, i.e. when more chunks
remain. -/
def onboard_chunk_loop (env : List Int → Except String (List String)) (delayPos : Bool) :
    List (List Int) → Nat → OnboardState → List NetEvent × OnboardState
  | [], _, st => ([], st)
  | batch :: rest, batch_num, st =>
    let st1 := onboard_step env batch batch_num st
    let sleepEvs := if delayPos ∧ rest ≠ [] then [NetEvent.sleepChunk] else []
    let restRun := onboard_chunk_loop env delayPos rest (batch_num + 1) st1
    (NetEvent.bulkUpdate batch :: (sleepEvs ++ restRun.1), restRun.2)

/-- Embeds the pre-computed batch execution of `cmd_scm_onboard_repos`
(cli.py lines 764-799): the target ids are chunked upfront and each chunk
submitted as one mutation call.  `delayPos` is `args.delay > 0`. -/
def onboard_batches (env : List Int → Except String (List String)) (delayPos : Bool)
    (batch_size : Nat) (repo_ids : List Int) : List NetEvent × OnboardState :=
  onboard_chunk_loop env delayPos (chunks batch_size repo_ids) 1 {}

/-- The mutable state of the streaming loop of `cmd_scm_trigger_scans`
(cli.py lines 923-928): the pending buffer, the five counters, and the
warnings printed for repos whose scan check errored. -/
structure TriggerState where
  pending_batch : List Int := []
  checked_count : Nat := 0
  skipped_count : Nat := 0
  triggered_count : Nat := 0
  failed_count : Nat := 0
  batch_num : Nat := 0
  warnings : List String := []
deriving DecidableEq

/-- Embeds the `trigger_batch` closure of `cmd_scm_trigger_scans`
(cli.py lines 930-944): nothing on an empty buffer; otherwise one
`trigger_scans` call with the whole buffer, success or failure counted, the
buffer emptied, and — inside the closure, after every flush — a sleep when
`args.delay > 0`.  `trigEnv` is the `trigger_scans` response. -/
def trigger_batch (trigEnv : List Int → Except String Unit) (delayPos : Bool)
    (st : TriggerState) : List NetEvent × TriggerState :=
  if st.pending_batch = [] then ([], st)
  else
    let st1 :=
      match trigEnv st.pending_batch with
      | .ok _ =>
        { st with batch_num := st.batch_num + 1,
                  triggered_count := st.triggered_count + st.pending_batch.length,
                  pending_batch := [] }
      | .error _ =>
        { st with batch_num := st.batch_num + 1,
                  failed_count := st.failed_count + st.pending_batch.length,
                  pending_batch := [] }
    (NetEvent.triggerScans st.pending_batch ::
       (if delayPos then [NetEvent.sleepChunk] else []), st1)

/-- The per-repo check body of the streaming loop (cli.py lines 946-956):
record the check, then either count a skip (completed full scan found),
append the repo id to the pending buffer (no full scan), or — when the
check itself errors — warn and append the repo id anyway.  `checkEnv` is
the `has_full_scan` response per repo id. -/
def trigger_check_step (checkEnv : Int → Except String Bool) (repo : Repo)
    (st : TriggerState) : TriggerState :=
  let st1 := { st with checked_count := st.checked_count + 1 }
  match checkEnv repo.id with
  | .ok true => { st1 with skipped_count := st1.skipped_count + 1 }
  | .ok false => { st1 with pending_batch := st1.pending_batch ++ [repo.id] }
  | .error _ =>
    { st1 with pending_batch := st1.pending_batch ++ [repo.id],
               warnings := st1.warnings ++ [repo.name] }

/-- The per-repo streaming loop of `cmd_scm_trigger_scans`
(cli.py lines 946-971): check `has_full_scan` (event `checkScan`, handled
by `trigger_check_step`); flush via `trigger_batch` once the buffer has
reached `batch_size`; sleep `check_delay` only between checks
(`i < len(repos) - 1`); after the loop, flush the remainder (line 971). -/
def trigger_scans_check_loop (checkEnv : Int → Except String Bool)
    (trigEnv : List Int → Except String Unit) (delayPos checkDelayPos : Bool)
    (batch_size : Nat) : List Repo → TriggerState → List NetEvent × TriggerState
  | [], st => trigger_batch trigEnv delayPos st
  | repo :: rest, st =>
    let st2 := trigger_check_step checkEnv repo st
    let flushed :=
      if batch_size ≤ st2.pending_batch.length then trigger_batch trigEnv delayPos st2
      else ([], st2)
    let checkSleep := if checkDelayPos ∧ rest ≠ [] then [NetEvent.sleepCheck] else []
    let restRun :=
      trigger_scans_check_loop checkEnv trigEnv delayPos checkDelayPos batch_size rest flushed.2
    (NetEvent.checkScan repo.id :: (flushed.1 ++ checkSleep ++ restRun.1), restRun.2)

/-- Embeds the streaming batch execution of `cmd_scm_trigger_scans`
(cli.py lines 918-973), started from the zeroed state. -/
def trigger_scans_streaming (checkEnv : Int → Except String Bool)
    (trigEnv : List Int → Except String Unit) (delayPos checkDelayPos : Bool)
    (batch_size : Nat) (repos : List Repo) : List NetEvent × TriggerState :=
  trigger_scans_check_loop checkEnv trigEnv delayPos checkDelayPos batch_size repos {}

/-- Whether the streaming loop adds a repo to the pending buffer: yes when
its check reports no completed full scan, and (fail-open) when the check
errors; no when it reports a completed full scan. -/
def shouldInclude (checkEnv : Int → Except String Bool) (repo : Repo) : Bool :=
  match checkEnv repo.id with
  | .ok true => false
  | .ok false => true
  | .error _ => true

/-- Whether the streaming loop's scan check errored for a repo. -/
def checkErrored (checkEnv : Int → Except String Bool) (repo : Repo) : Bool :=
  match checkEnv repo.id with
  | .ok _ => false
  | .error _ => true

/- Helper lemmas about traces and chunking. -/

theorem mutationPayloads_append (a b : List NetEvent) :
    mutationPayloads (a ++ b) = mutationPayloads a ++ mutationPayloads b := by
  induction a with
  | nil => rfl
  | cons e rest ih => cases e <;> simp [mutationPayloads, ih]

theorem pySplitChar_ne_nil (sep : Char) (l : List Char) : pySplitChar sep l ≠ [] := by
  cases l with
  | nil => simp [pySplitChar]
  | cons c rest =>
    simp only [pySplitChar]
    split
    · simp
    · split <;> simp

theorem chunksAux_flatten {bs : Nat} (hbs : 0 < bs) :
    ∀ (fuel : Nat) (ids : List Int), ids.length ≤ fuel →
      (chunksAux bs fuel ids).flatten = ids := by
  intro fuel
  induction fuel with
  | zero =>
    intro ids h
    have hnil : ids = [] := List.length_eq_zero.mp (Nat.le_zero.mp h)
    subst hnil
    rfl
  | succ n ih =>
    intro ids h
    cases ids with
    | nil => rfl
    | cons x xs =>
      have hlen : ((x :: xs).drop bs).length ≤ n := by
        simp only [List.length_drop, List.length_cons] at h ⊢
        omega
      simp only [chunksAux, List.flatten_cons, ih _ hlen, List.take_append_drop]

theorem chunks_flatten {bs : Nat} (hbs : 0 < bs) (ids : List Int) :
    (chunks bs ids).flatten = ids :=
  chunksAux_flatten hbs ids.length ids le_rfl

theorem chunks_ne_nil (bs : Nat) {ids : List Int} (h : ids ≠ []) :
    chunks bs ids ≠ [] := by
  obtain ⟨a, t, rfl⟩ := List.exists_cons_of_ne_nil h
  show chunksAux bs ((a :: t).length) (a :: t) ≠ []
  rw [List.length_cons]
  simp [chunksAux]

theorem trigger_batch_payloads (tE : List Int → Except String Unit) (dP : Bool)
    (st : TriggerState) :
    mutationPayloads (trigger_batch tE dP st).1
      = if st.pending_batch = [] then [] else [st.pending_batch] := by
  unfold trigger_batch
  split
  · simp [mutationPayloads]
  · cases dP <;> simp [mutationPayloads]

theorem trigger_batch_pending (tE : List Int → Except String Unit) (dP : Bool)
    (st : TriggerState) : (trigger_batch tE dP st).2.pending_batch = [] := by
  unfold trigger_batch
  split
  · next h => simpa using h
  · cases htE : tE st.pending_batch <;> simp

theorem trigger_batch_warnings (tE : List Int → Except String Unit) (dP : Bool)
    (st : TriggerState) : (trigger_batch tE dP st).2.warnings = st.warnings := by
  unfold trigger_batch
  split
  · rfl
  · cases htE : tE st.pending_batch <;> simp

theorem trigger_batch_sleep_count (tE : List Int → Except String Unit) (st : TriggerState) :
    ((trigger_batch tE true st).1).count NetEvent.sleepChunk
      = (mutationPayloads (trigger_batch tE true st).1).length := by
  unfold trigger_batch
  split
  · simp [mutationPayloads]
  · simp [mutationPayloads, List.count_cons]

theorem trigger_check_step_pending (cE : Int → Except String Bool) (r : Repo)
    (st : TriggerState) :
    (trigger_check_step cE r st).pending_batch
      = if shouldInclude cE r then st.pending_batch ++ [r.id] else st.pending_batch := by
  unfold trigger_check_step shouldInclude
  cases hc : cE r.id with
  | ok b => cases b <;> simp
  | error e => simp

theorem trigger_check_step_warnings (cE : Int → Except String Bool) (r : Repo)
    (st : TriggerState) :
    (trigger_check_step cE r st).warnings
      = if checkErrored cE r then st.warnings ++ [r.name] else st.warnings := by
  unfold trigger_check_step checkErrored
  cases hc : cE r.id with
  | ok b => cases b <;> simp
  | error e => simp

theorem onboard_loop_payloads (env : List Int → Except String (List String)) (dP : Bool) :
    ∀ (cs : List (List Int)) (bn : Nat) (st : OnboardState),
      mutationPayloads (onboard_chunk_loop env dP cs bn st).1 = cs := by
  intro cs
  induction cs with
  | nil => intro bn st; rfl
  | cons c rest ih =>
    intro bn st
    simp only [onboard_chunk_loop]
    by_cases hd : dP ∧ rest ≠ []
    · obtain ⟨hdp, hrest⟩ := hd
      subst hdp
      simp [hrest, mutationPayloads, mutationPayloads_append, ih]
    · simp [hd, mutationPayloads, mutationPayloads_append, ih]

theorem onboard_loop_failed (env : List Int → Except String (List String)) (dP : Bool) :
    ∀ (cs : List (List Int)) (bn : Nat) (st : OnboardState),
      ((onboard_chunk_loop env dP cs bn st).2).failed_count
        = st.failed_count
          + (cs.map (fun c =>
              match env c with
              | .ok _ => 0
              | .error _ => c.length)).sum := by
  intro cs
  induction cs with
  | nil => intro bn st; simp [onboard_chunk_loop]
  | cons c rest ih =>
    intro bn st
    simp only [onboard_chunk_loop, List.map_cons, List.sum_cons]
    rw [ih]
    unfold onboard_step
    cases henv : env c <;> simp <;> omega

theorem onboard_loop_trace_last (env : List Int → Except String (List String)) (dP : Bool) :
    ∀ (cs : List (List Int)) (bn : Nat) (st : OnboardState), cs ≠ [] →
      ∃ c, ((onboard_chunk_loop env dP cs bn st).1).getLast? = some (NetEvent.bulkUpdate c) := by
  intro cs
  induction cs with
  | nil => intro bn st h; exact absurd rfl h
  | cons c rest ih =>
    intro bn st _
    by_cases hr : rest = []
    · subst hr
      exact ⟨c, by simp [onboard_chunk_loop]⟩
    · obtain ⟨c2, hc2⟩ := ih (bn + 1) (onboard_step env c bn st) hr
      have hne : (onboard_chunk_loop env dP rest (bn + 1) (onboard_step env c bn st)).1 ≠ [] := by
        intro hEmpty
        rw [hEmpty] at hc2
        simp at hc2
      refine ⟨c2, ?_⟩
      simp only [onboard_chunk_loop]
      by_cases hdp : dP ∧ rest ≠ []
      · rw [if_pos hdp, ← List.cons_append, ← List.singleton_append,
          List.getLast?_append_of_ne_nil _ hne]
        exact hc2
      · rw [if_neg hdp, List.nil_append, ← List.singleton_append,
          List.getLast?_append_of_ne_nil _ hne]
        exact hc2

theorem onboard_loop_sleep_count (env : List Int → Except String (List String)) :
    ∀ (cs : List (List Int)) (bn : Nat) (st : OnboardState),
      ((onboard_chunk_loop env true cs bn st).1).count NetEvent.sleepChunk = cs.length - 1 := by
  intro cs
  induction cs with
  | nil => intro bn st; rfl
  | cons c rest ih =>
    intro bn st
    by_cases hr : rest = []
    · subst hr
      simp [onboard_chunk_loop, List.count_cons]
    · have hlen : 0 < rest.length := List.length_pos.mpr hr
      simp [onboard_chunk_loop, hr, List.count_cons, List.count_append, ih]
      omega

theorem flush_payload_pending (tE : List Int → Except String Unit) (dP : Bool) (bs : Nat)
    (st2 : TriggerState) :
    (mutationPayloads (if bs ≤ st2.pending_batch.length then trigger_batch tE dP st2
        else ([], st2)).1).flatten
      ++ ((if bs ≤ st2.pending_batch.length then trigger_batch tE dP st2
        else ([], st2)).2).pending_batch
      = st2.pending_batch := by
  by_cases hf : bs ≤ st2.pending_batch.length
  · rw [if_pos hf, trigger_batch_payloads, trigger_batch_pending]
    by_cases hp : st2.pending_batch = [] <;> simp [hp]
  · rw [if_neg hf]
    simp [mutationPayloads]

theorem trigger_loop_payload_flatten (cE : Int → Except String Bool)
    (tE : List Int → Except String Unit) (dP cdP : Bool) (bs : Nat) :
    ∀ (repos : List Repo) (st : TriggerState),
      (mutationPayloads (trigger_scans_check_loop cE tE dP cdP bs repos st).1).flatten
        = st.pending_batch ++ (repos.filter (shouldInclude cE)).map Repo.id := by
  intro repos
  induction repos with
  | nil =>
    intro st
    simp only [trigger_scans_check_loop, List.filter_nil, List.map_nil, List.append_nil]
    rw [trigger_batch_payloads]
    by_cases hp : st.pending_batch = [] <;> simp [hp]
  | cons r rest ih =>
    intro st
    have key := flush_payload_pending tE dP bs (trigger_check_step cE r st)
    by_cases hf : bs ≤ (trigger_check_step cE r st).pending_batch.length <;>
    by_cases hs : shouldInclude cE r = true <;>
    by_cases hcs : cdP ∧ rest ≠ [] <;>
    simp only [trigger_scans_check_loop, hf, hs, hcs, if_pos, if_neg, if_true, if_false,
      mutationPayloads, mutationPayloads_append, List.flatten_append, ih] <;>
    simp_all [trigger_check_step_pending, List.filter_cons, mutationPayloads] <;>
    simp_all [trigger_batch_payloads, trigger_batch_pending]

theorem trigger_loop_warnings (cE : Int → Except String Bool)
    (tE : List Int → Except String Unit) (dP cdP : Bool) (bs : Nat) :
    ∀ (repos : List Repo) (st : TriggerState),
      ((trigger_scans_check_loop cE tE dP cdP bs repos st).2).warnings
        = st.warnings ++ (repos.filter (checkErrored cE)).map Repo.name := by
  intro repos
  induction repos with
  | nil => intro st; simp [trigger_scans_check_loop, trigger_batch_warnings]
  | cons r rest ih =>
    intro st
    by_cases hf : bs ≤ (trigger_check_step cE r st).pending_batch.length <;>
    by_cases he : checkErrored cE r = true <;>
    simp [trigger_scans_check_loop, hf, he, ih, trigger_batch_warnings,
      trigger_check_step_warnings, List.filter_cons]

theorem trigger_loop_sleep_count (cE : Int → Except String Bool)
    (tE : List Int → Except String Unit) (cdP : Bool) (bs : Nat) :
    ∀ (repos : List Repo) (st : TriggerState),
      ((trigger_scans_check_loop cE tE true cdP bs repos st).1).count NetEvent.sleepChunk
        = (mutationPayloads (trigger_scans_check_loop cE tE true cdP bs repos st).1).length := by
  intro repos
  induction repos with
  | nil =>
    intro st
    simp only [trigger_scans_check_loop]
    exact trigger_batch_sleep_count tE st
  | cons r rest ih =>
    intro st
    by_cases hcs : cdP ∧ rest ≠ []
    · obtain ⟨hcdp, hrest⟩ := hcs
      subst hcdp
      by_cases hf : bs ≤ (trigger_check_step cE r st).pending_batch.length <;>
      simp [trigger_scans_check_loop, hf, hrest, mutationPayloads, mutationPayloads_append,
        List.count_cons, List.count_append, ih, trigger_batch_sleep_count]
    · by_cases hf : bs ≤ (trigger_check_step cE r st).pending_batch.length <;>
      simp [trigger_scans_check_loop, hf, hcs, mutationPayloads, mutationPayloads_append,
        List.count_cons, List.count_append, ih, trigger_batch_sleep_count]

/- Claim theorems. -/

/-- Claim C2: `get_namespace_from_url` never throws and, per the claim,
should return None for a URL with an empty path.  Evaluating the code: at
the failing input "https://github.com" (empty path) it returns
`("https://github.com", "")` instead of None, because Python's
`"".split("/")` is `[""]` so the `if path_parts:` guard is always true; at
"https://github.com/acme/widgets" it returns the claimed pair, and None
requires urlparse itself to raise (e.g. the lone bracket "http://["). -/
theorem C2_empty_path_eval :
    get_namespace_from_url "https://github.com" = some ("https://github.com", "")
    ∧ get_namespace_from_url "https://github.com/acme/widgets"
        = some ("https://github.com", "acme")
    ∧ get_namespace_from_url "http://[" = none := by
  refine ⟨rfl, rfl, rfl⟩

/-- The Python `return None` fallthrough of get_namespace_from_url is
unreachable whenever urlparse succeeds: the split path-part list is never
empty. -/
theorem get_namespace_from_url_none_iff (url : String) :
    get_namespace_from_url url = none ↔ ∃ e, pyUrlparse url = .error e := by
  unfold get_namespace_from_url
  cases hp : pyUrlparse url with
  | error e => simp
  | ok parsed =>
    simp only []
    cases hsplit : pySplitChar '/' (pyStripChar '/' parsed.path.toList) with
    | nil => exact absurd hsplit (pySplitChar_ne_nil _ _)
    | cons p t => simp

/-- Claim C4: `meets_requirements` is false for every non-healthy config;
for a healthy config it is true when no required scopes are given; with
required scopes and reported token scopes it is true iff every required
scope is present; with required scopes but absent token scopes the healthy
config is not failed; and the spec's concrete example behaves as stated. -/
theorem C4_meets_requirements :
    (∀ (c : ScmConfig) (req : Option (List String)),
        c.is_healthy = false → c.meets_requirements req = false)
  ∧ (∀ c : ScmConfig, c.is_healthy = true → c.meets_requirements none = true)
  ∧ (∀ (c : ScmConfig) (rs : List String) (ts : ScmTokenScopes),
        c.is_healthy = true → c.token_scopes = some ts →
        (c.meets_requirements (some rs) = true ↔ ∀ s ∈ rs, ts.getScope s = true))
  ∧ (∀ (c : ScmConfig) (rs : List String),
        c.is_healthy = true → c.token_scopes = none →
        c.meets_requirements (some rs) = true)
  ∧ (ScmConfig.meets_requirements
        { id := "c1", type := "SCM_TYPE_GITHUB_ENTERPRISE", nsp := "acme",
          status := some { ok := true },
          token_scopes := some { read_metadata := true, read_contents := false } }
        (some ["read_contents"]) = false
      ∧ ScmConfig.meets_requirements
        { id := "c1", type := "SCM_TYPE_GITHUB_ENTERPRISE", nsp := "acme",
          status := some { ok := true },
          token_scopes := some { read_metadata := true, read_contents := false } }
        none = true) := by
  refine ⟨?_, ?_, ?_, ?_, by decide, by decide⟩
  · intro c req h
    simp [ScmConfig.meets_requirements, h]
  · intro c h
    cases hts : c.token_scopes <;> simp [ScmConfig.meets_requirements, h, hts]
  · intro c rs ts h ht
    by_cases hrs : rs.isEmpty
    · have hnil : rs = [] := List.isEmpty_iff.mp hrs
      subst hnil
      simp [ScmConfig.meets_requirements, h, ht]
    · simp [ScmConfig.meets_requirements, h, ht, hrs, ScmTokenScopes.has_scopes,
        List.all_eq_true]
  · intro c rs h ht
    simp [ScmConfig.meets_requirements, h, ht]

/-- Claim C4 witness: the theorem applied to a concrete unhealthy config
and to a concrete healthy config with reported scopes. -/
theorem C4_witness :
    ScmConfig.meets_requirements
      { id := "u", type := "t", nsp := "o", status := some { ok := false } } none = false
    ∧ (ScmConfig.meets_requirements
        { id := "h", type := "t", nsp := "o", status := some { ok := true },
          token_scopes := some { read_contents := true } }
        (some ["read_contents"]) = true
        ↔ ∀ s ∈ ["read_contents"],
            ScmTokenScopes.getScope { read_contents := true } s = true) :=
  ⟨C4_meets_requirements.1 _ none (by decide),
   C4_meets_requirements.2.2.1 _ ["read_contents"] { read_contents := true }
     (by decide) rfl⟩

/-- Claim C5: `get_missing_orgs` filters configs to those whose normalized
base_url matches the normalized GHES URL, returns as missing exactly the
orgs whose lowercased login is not among the filtered configs' lowercased
namespaces, in input order, and the spec's [A, B, C] example evaluates as
stated. -/
theorem C5_get_missing_orgs (ghes_url : String) (ghes_orgs : List GithubOrganization)
    (all_configs : List ScmConfig) :
    (get_missing_orgs ghes_url ghes_orgs all_configs).2
        = all_configs.filter (configMatchesUrl ghes_url)
    ∧ (get_missing_orgs ghes_url ghes_orgs all_configs).1
        = ghes_orgs.filter (fun org =>
            decide (pyLower org.login ∉
              (all_configs.filter (configMatchesUrl ghes_url)).map
                (fun config => pyLower config.nsp)))
    ∧ get_missing_orgs "https://x"
        [⟨1, "A", none, none⟩, ⟨2, "B", none, none⟩, ⟨3, "C", none, none⟩]
        [{ id := "c1", type := "t", nsp := "B", base_url := some "https://x" }]
      = ([⟨1, "A", none, none⟩, ⟨3, "C", none, none⟩],
         [{ id := "c1", type := "t", nsp := "B", base_url := some "https://x" }]) := by
  refine ⟨rfl, ?_, by decide⟩
  simp only [get_missing_orgs]
  apply List.filter_congr
  intro o ho
  simp only [decide_eq_decide]
  constructor
  · intro hmem
    rw [List.mem_filter] at hmem
    simpa using hmem.2
  · intro hnot
    rw [List.mem_filter]
    refine ⟨List.mem_map_of_mem _ ho, by simpa using hnot⟩

/-- Claim C6: `filter_repos_by_healthy_scm` partitions the input repo list
in order: a repo lands in the healthy list iff its url is present and
non-empty, parses, and its lowercased (base_url, namespace) pair is in the
set built from the configs meeting the health requirements; every other
repo lands in skipped, both lists in input order.  In particular a repo
whose URL matches a config with `status.ok = false` is skipped even with no
required scopes. -/
theorem C6_filter_repos_partition :
    (∀ (repos : List Repo) (scm_configs : List ScmConfig)
        (required_scopes : Option (List String)),
        filter_repos_by_healthy_scm repos scm_configs required_scopes
          = (repos.filter (repoAccepted scm_configs required_scopes),
             repos.filter (fun r => !(repoAccepted scm_configs required_scopes r))))
  ∧ filter_repos_by_healthy_scm
        [{ id := 1, name := "widgets", url := some "https://ghes.example.com/acme/widgets" }]
        [{ id := "c1", type := "SCM_TYPE_GITHUB_ENTERPRISE", nsp := "acme",
           base_url := some "https://ghes.example.com",
           status := some { ok := false } }] none
      = ([], [{ id := 1, name := "widgets",
                url := some "https://ghes.example.com/acme/widgets" }]) := by
  refine ⟨?_, by decide⟩
  intro repos scm_configs required_scopes
  unfold filter_repos_by_healthy_scm
  induction repos with
  | nil => rfl
  | cons r rest ih =>
    cases hu : r.url with
    | none => simp [filterReposGo, repoAccepted, hu, ih, List.filter_cons]
    | some u =>
      by_cases hu0 : u = ""
      · subst hu0
        simp [filterReposGo, repoAccepted, hu, ih, List.filter_cons]
      · cases hp : get_namespace_from_url u with
        | none => simp [filterReposGo, repoAccepted, hu, hu0, hp, ih, List.filter_cons]
        | some pr =>
          obtain ⟨b, n⟩ := pr
          by_cases hm :
              (pyLower b, pyLower n) ∈ healthyNamespacePairs scm_configs required_scopes
          · simp [filterReposGo, repoAccepted, hu, hu0, hp, hm, ih, List.filter_cons]
          · simp [filterReposGo, repoAccepted, hu, hu0, hp, hm, ih, List.filter_cons]

/-- Claim C1 (counterexample): invoking the embedded delete-configs command
with an empty target-org list does exit with a validation error and issues
no delete call, but the `list_scm_configs` fetch has already been issued:
the trace contains one fetch event, so "zero list/fetch calls" is false. -/
theorem C1_counterexample :
    ((cmd_scm_delete_configs "https://ghes.example.com" [] false false []
        (fun _ => Except.ok ())).1).count NetEvent.fetchConfigs = 1
    ∧ (cmd_scm_delete_configs "https://ghes.example.com" [] false false []
        (fun _ => Except.ok ())).2 = DeleteOutcome.exited 1 := by
  exact ⟨by decide, by decide⟩

/-- Claim C1 (amended): for every invocation of delete-configs with an
empty target-org list, the command exits with validation error code 1
before any mutation call — the trace is exactly the config-list fetch, so
zero delete calls are issued, but that one fetch precedes the validation
check. -/
theorem C1_amended_delete_validation (ghes_url : String) (dry_run delayPos : Bool)
    (all_configs : List ScmConfig) (deleteEnv : String → Except String Unit) :
    cmd_scm_delete_configs ghes_url [] dry_run delayPos all_configs deleteEnv
      = ([NetEvent.fetchConfigs], DeleteOutcome.exited 1) := by
  simp [cmd_scm_delete_configs]

/-- Claim C8: with 251 target ids and chunk size 250 and a positive delay,
the onboarding batch loop issues exactly two mutation chunks, of sizes 250
and 1, with the inter-chunk delay exactly once, between them and never
after the second chunk — whatever the per-chunk call outcomes. -/
theorem C8_precomputed_chunks (env : List Int → Except String (List String))
    (ids : List Int) (h : ids.length = 251) :
    (onboard_batches env true 250 ids).1
      = [NetEvent.bulkUpdate (ids.take 250), NetEvent.sleepChunk,
         NetEvent.bulkUpdate (ids.drop 250)]
    ∧ (ids.take 250).length = 250 ∧ (ids.drop 250).length = 1 := by
  have hne : ids ≠ [] := by
    intro hE
    rw [hE] at h
    simp at h
  obtain ⟨a, t, rfl⟩ := List.exists_cons_of_ne_nil hne
  have hd1 : ((a :: t).drop 250).length = 1 := by
    rw [List.length_drop, h]
  obtain ⟨b, hb⟩ := List.length_eq_one.mp hd1
  have hch : chunks 250 (a :: t) = [(a :: t).take 250, (a :: t).drop 250] := by
    unfold chunks
    rw [h]
    have h1 : chunksAux 250 251 (a :: t)
        = (a :: t).take 250 :: chunksAux 250 250 ((a :: t).drop 250) := rfl
    rw [h1, hb]
    rfl
  refine ⟨?_, ?_, hd1⟩
  · unfold onboard_batches
    rw [hch]
    simp [onboard_chunk_loop, hb]
  · rw [List.length_take, h]
    decide

set_option maxRecDepth 4000 in
/-- Claim C8 witness: the theorem applied to the concrete id list 0..250. -/
theorem C8_witness :
    (onboard_batches (fun _ => Except.ok []) true 250
        ((List.range 251).map (fun n => (n : Int)))).1
      = [NetEvent.bulkUpdate (((List.range 251).map (fun n => (n : Int))).take 250),
         NetEvent.sleepChunk,
         NetEvent.bulkUpdate (((List.range 251).map (fun n => (n : Int))).drop 250)]
    ∧ (((List.range 251).map (fun n => (n : Int))).take 250).length = 250
    ∧ (((List.range 251).map (fun n => (n : Int))).drop 250).length = 1 :=
  C8_precomputed_chunks (fun _ => Except.ok []) _ (by decide)

theorem trigger_batch_trace_congr (tE tE' : List Int → Except String Unit) (dP : Bool)
    (st st' : TriggerState) (h : st.pending_batch = st'.pending_batch) :
    (trigger_batch tE dP st).1 = (trigger_batch tE' dP st').1 := by
  unfold trigger_batch
  rw [h]
  split <;> rfl

theorem trigger_loop_trace_congr (cE : Int → Except String Bool)
    (tE tE' : List Int → Except String Unit) (dP cdP : Bool) (bs : Nat) :
    ∀ (repos : List Repo) (st st' : TriggerState),
      st.pending_batch = st'.pending_batch →
      (trigger_scans_check_loop cE tE dP cdP bs repos st).1
        = (trigger_scans_check_loop cE tE' dP cdP bs repos st').1 := by
  intro repos
  induction repos with
  | nil => intro st st' h; exact trigger_batch_trace_congr tE tE' dP st st' h
  | cons r rest ih =>
    intro st st' h
    have hstep : (trigger_check_step cE r st).pending_batch
        = (trigger_check_step cE r st').pending_batch := by
      rw [trigger_check_step_pending, trigger_check_step_pending, h]
    simp only [trigger_scans_check_loop]
    by_cases hf : bs ≤ (trigger_check_step cE r st).pending_batch.length
    · have hf' : bs ≤ (trigger_check_step cE r st').pending_batch.length := by
        rw [← hstep]
        exact hf
      rw [if_pos hf, if_pos hf',
        trigger_batch_trace_congr tE tE' dP _ _ hstep,
        ih (trigger_batch tE dP (trigger_check_step cE r st)).2
          (trigger_batch tE' dP (trigger_check_step cE r st')).2
          (by rw [trigger_batch_pending, trigger_batch_pending])]
    · have hf' : ¬ bs ≤ (trigger_check_step cE r st').pending_batch.length := by
        rw [← hstep]
        exact hf
      rw [if_neg hf, if_neg hf',
        ih (trigger_check_step cE r st) (trigger_check_step cE r st') hstep]

set_option maxHeartbeats 2000000 in
/-- Claim C7: streaming batching with chunk size 10 over repos 1..20 whose
full-scan check is false for 1..15 and true for 16..20 issues exactly one
flush of ten items right after checking item 10 and exactly one final flush
of the five pending items 11..15 at end of input; items 16..20 appear in no
mutation call — whatever the trigger-call outcomes. -/
theorem C7_streaming_flushes (tE : List Int → Except String Unit) :
    (trigger_scans_streaming (fun pid => Except.ok (decide (16 ≤ pid))) tE false false 10
        ((List.range 20).map (fun n => { id := (n : Int) + 1, name := "" }))).1
      = [NetEvent.checkScan 1, NetEvent.checkScan 2, NetEvent.checkScan 3,
         NetEvent.checkScan 4, NetEvent.checkScan 5, NetEvent.checkScan 6,
         NetEvent.checkScan 7, NetEvent.checkScan 8, NetEvent.checkScan 9,
         NetEvent.checkScan 10,
         NetEvent.triggerScans [1, 2, 3, 4, 5, 6, 7, 8, 9, 10],
         NetEvent.checkScan 11, NetEvent.checkScan 12, NetEvent.checkScan 13,
         NetEvent.checkScan 14, NetEvent.checkScan 15, NetEvent.checkScan 16,
         NetEvent.checkScan 17, NetEvent.checkScan 18, NetEvent.checkScan 19,
         NetEvent.checkScan 20,
         NetEvent.triggerScans [11, 12, 13, 14, 15]] := by
  unfold trigger_scans_streaming
  rw [trigger_loop_trace_congr _ tE (fun _ => Except.ok ()) false false 10 _ {} {} rfl]
  decide

/-- Claim C3 (counterexample): in streaming batching with a positive delay,
a delay event is issued after the final flush: with one repo failing the
precondition, the trace ends with `sleepChunk` right after the end-of-input
flush, refuting "after the final chunk or final flush, no delay is ever
issued". -/
theorem C3_counterexample :
    (trigger_scans_streaming (fun _ => Except.ok false) (fun _ => Except.ok ()) true false 10
        [{ id := 1, name := "r1" }]).1
      = [NetEvent.checkScan 1, NetEvent.triggerScans [1], NetEvent.sleepChunk]
    ∧ ((trigger_scans_streaming (fun _ => Except.ok false) (fun _ => Except.ok ()) true false 10
        [{ id := 1, name := "r1" }]).1).getLast? = some NetEvent.sleepChunk := by
  exact ⟨rfl, rfl⟩

/-- Claim C3 (amended): in pre-computed batching the delay is issued only
strictly between consecutive chunks — the trace always ends with a mutation
event and, with a positive delay, contains exactly one fewer sleep than
there are chunks; in streaming batching, by contrast, the delay is issued
after every flush including the final one — with a positive delay the trace
contains exactly as many inter-chunk sleeps as mutation calls. -/
theorem C3_amended_delay_placement :
    (∀ (env : List Int → Except String (List String)) (dP : Bool) (bs : Nat)
        (ids : List Int), ids ≠ [] →
        ∃ c, ((onboard_batches env dP bs ids).1).getLast?
          = some (NetEvent.bulkUpdate c))
  ∧ (∀ (env : List Int → Except String (List String)) (bs : Nat) (ids : List Int),
        ((onboard_batches env true bs ids).1).count NetEvent.sleepChunk
          = (chunks bs ids).length - 1)
  ∧ (∀ (cE : Int → Except String Bool) (tE : List Int → Except String Unit)
        (cdP : Bool) (bs : Nat) (repos : List Repo),
        ((trigger_scans_streaming cE tE true cdP bs repos).1).count NetEvent.sleepChunk
          = (mutationPayloads (trigger_scans_streaming cE tE true cdP bs repos).1).length) := by
  refine ⟨?_, ?_, ?_⟩
  · intro env dP bs ids hne
    exact onboard_loop_trace_last env dP (chunks bs ids) 1 {} (chunks_ne_nil bs hne)
  · intro env bs ids
    exact onboard_loop_sleep_count env (chunks bs ids) 1 {}
  · intro cE tE cdP bs repos
    exact trigger_loop_sleep_count cE tE cdP bs repos {}

/-- Claim C3 witness: the amended theorem applied to a concrete three-id
onboarding run with chunk size 2 and delay on. -/
theorem C3_witness :
    (∃ c, ((onboard_batches (fun _ => Except.ok []) true 2 [1, 2, 3]).1).getLast?
        = some (NetEvent.bulkUpdate c))
    ∧ ((onboard_batches (fun _ => Except.ok []) true 2 [1, 2, 3]).1).count
        NetEvent.sleepChunk = (chunks 2 [1, 2, 3]).length - 1 :=
  ⟨C3_amended_delay_placement.1 (fun _ => Except.ok []) true 2 [1, 2, 3] (by decide),
   C3_amended_delay_placement.2.1 (fun _ => Except.ok []) 2 [1, 2, 3]⟩

/-- Claim C9: in streaming batching, every repo whose precondition check
errors (rather than returning false) is still included in some mutation
payload (fail-open) and a warning naming it is recorded; the repo is never
dropped from the target set. -/
theorem C9_fail_open (cE : Int → Except String Bool) (tE : List Int → Except String Unit)
    (dP cdP : Bool) (bs : Nat) (repos : List Repo) (r : Repo) (msg : String)
    (hmem : r ∈ repos) (herr : cE r.id = Except.error msg) :
    r.id ∈ (mutationPayloads (trigger_scans_streaming cE tE dP cdP bs repos).1).flatten
    ∧ r.name ∈ ((trigger_scans_streaming cE tE dP cdP bs repos).2).warnings := by
  have hinc : shouldInclude cE r = true := by
    unfold shouldInclude
    rw [herr]
  have herr2 : checkErrored cE r = true := by
    unfold checkErrored
    rw [herr]
  constructor
  · unfold trigger_scans_streaming
    rw [trigger_loop_payload_flatten]
    simp only [TriggerState.pending_batch, List.nil_append]
    exact List.mem_map_of_mem _ (List.mem_filter.mpr ⟨hmem, hinc⟩)
  · unfold trigger_scans_streaming
    rw [trigger_loop_warnings]
    simp only [TriggerState.warnings, List.nil_append]
    exact List.mem_map_of_mem _ (List.mem_filter.mpr ⟨hmem, herr2⟩)

/-- Claim C9 witness: the theorem applied to one repo whose check errors. -/
theorem C9_witness :
    ((1 : Int) ∈ (mutationPayloads (trigger_scans_streaming (fun _ => Except.error "boom")
        (fun _ => Except.ok ()) false false 10 [{ id := 1, name := "r1" }]).1).flatten)
    ∧ "r1" ∈ ((trigger_scans_streaming (fun _ => Except.error "boom")
        (fun _ => Except.ok ()) false false 10 [{ id := 1, name := "r1" }]).2).warnings :=
  C9_fail_open _ _ false false 10 _ { id := 1, name := "r1" } "boom"
    (List.mem_singleton.mpr rfl) rfl

/-- Claim C10: each target id is submitted in at most one mutation call.
In pre-computed batching the concatenation of all mutation payloads is
exactly the target list, whatever the per-chunk outcomes — so failed
chunks' ids are never resubmitted and with distinct ids each occurs at most
once — and the final failure count sums the sizes of exactly the failed
chunks; in streaming batching the concatenation of all flush payloads is
exactly the buffered ids, in order, and the pending buffer is empty after
every flush whether it succeeded or failed. -/
theorem C10_single_submission :
    (∀ (env : List Int → Except String (List String)) (dP : Bool) (bs : Nat)
        (ids : List Int), 0 < bs →
        (mutationPayloads (onboard_batches env dP bs ids).1).flatten = ids)
  ∧ (∀ (env : List Int → Except String (List String)) (dP : Bool) (bs : Nat)
        (ids : List Int) (x : Int), 0 < bs → ids.Nodup →
        ((mutationPayloads (onboard_batches env dP bs ids).1).flatten).count x ≤ 1)
  ∧ (∀ (env : List Int → Except String (List String)) (dP : Bool) (bs : Nat)
        (ids : List Int),
        ((onboard_batches env dP bs ids).2).failed_count
          = ((chunks bs ids).map (fun c =>
              match env c with
              | .ok _ => 0
              | .error _ => c.length)).sum)
  ∧ (∀ (cE : Int → Except String Bool) (tE : List Int → Except String Unit)
        (dP cdP : Bool) (bs : Nat) (repos : List Repo),
        (mutationPayloads (trigger_scans_streaming cE tE dP cdP bs repos).1).flatten
          = (repos.filter (shouldInclude cE)).map Repo.id)
  ∧ (∀ (cE : Int → Except String Bool) (tE : List Int → Except String Unit)
        (dP cdP : Bool) (bs : Nat) (repos : List Repo) (x : Int),
        (repos.map Repo.id).Nodup →
        ((mutationPayloads (trigger_scans_streaming cE tE dP cdP bs repos).1).flatten).count
          x ≤ 1)
  ∧ (∀ (tE : List Int → Except String Unit) (dP : Bool) (st : TriggerState),
        ((trigger_batch tE dP st).2).pending_batch = []) := by
  have hOn : ∀ (env : List Int → Except String (List String)) (dP : Bool) (bs : Nat)
      (ids : List Int), 0 < bs →
      (mutationPayloads (onboard_batches env dP bs ids).1).flatten = ids := by
    intro env dP bs ids hbs
    unfold onboard_batches
    rw [onboard_loop_payloads]
    exact chunks_flatten hbs ids
  have hStr : ∀ (cE : Int → Except String Bool) (tE : List Int → Except String Unit)
      (dP cdP : Bool) (bs : Nat) (repos : List Repo),
      (mutationPayloads (trigger_scans_streaming cE tE dP cdP bs repos).1).flatten
        = (repos.filter (shouldInclude cE)).map Repo.id := by
    intro cE tE dP cdP bs repos
    unfold trigger_scans_streaming
    rw [trigger_loop_payload_flatten]
    simp only [TriggerState.pending_batch, List.nil_append]
  refine ⟨hOn, ?_, ?_, hStr, ?_, ?_⟩
  · intro env dP bs ids x hbs hnd
    rw [hOn env dP bs ids hbs]
    exact List.nodup_iff_count_le_one.mp hnd x
  · intro env dP bs ids
    unfold onboard_batches
    rw [onboard_loop_failed]
    simp
  · intro cE tE dP cdP bs repos x hnd
    rw [hStr cE tE dP cdP bs repos]
    have hsub : List.Sublist ((repos.filter (shouldInclude cE)).map Repo.id)
        (repos.map Repo.id) :=
      List.Sublist.map Repo.id (List.filter_sublist repos)
    exact List.nodup_iff_count_le_one.mp (List.Nodup.sublist hsub hnd) x
  · intro tE dP st
    exact trigger_batch_pending tE dP st

/-- Claim C10 witness: the theorem applied to a concrete failing onboarding
run and a concrete streaming run. -/
theorem C10_witness :
    (mutationPayloads (onboard_batches (fun _ => Except.error "e") false 2 [1, 2, 3]).1).flatten
        = [1, 2, 3]
    ∧ ((mutationPayloads (onboard_batches (fun _ => Except.error "e") false 2
        [1, 2, 3]).1).flatten).count 1 ≤ 1
    ∧ ((mutationPayloads (trigger_scans_streaming (fun _ => Except.ok false)
        (fun _ => Except.ok ()) false false 2
        [{ id := 1, name := "a" }, { id := 2, name := "b" }]).1).flatten).count 1 ≤ 1 :=
  ⟨C10_single_submission.1 _ false 2 [1, 2, 3] (by decide),
   C10_single_submission.2.1 _ false 2 [1, 2, 3] 1 (by decide) (by decide),
   C10_single_submission.2.2.2.2.1 _ _ false false 2 _ 1 (by decide)⟩
